import Mathlib

/-!
Verification of the Brownsville data pipeline (CahhBrownsville/Brownsville-project).

A shallow embedding of the fetch-and-cache layer (`Brownsville/data_api.py`,
class `Client`, method `__get_results`), the dataset join pipeline
(`Client.load_brownsville`, `Brownsville.__filter_no_complaints`), the
borough-block-lot key derivation (`helpers.format_BBL`,
`Brownsville.__get_BBL`) and the spatial enrichment loop
(`Brownsville.__get_spatial_information`, `geocode.GeocodeClient`).

Python dictionaries of query keyword arguments are modelled as association
lists over a small value type; pandas DataFrames are modelled as lists of
rows; timestamps are naturals; the remote Socrata service and the geocoding
service are modelled as function parameters; network calls and cache-file
writes performed by a call are recorded in explicit traces.
-/

namespace Brownsville

/-- A Python value appearing in a query keyword-argument dictionary. -/
inductive PyVal where
  | str (s : String)
  | int (n : Int)
deriving DecidableEq, Repr

/-- A Python keyword-argument dictionary (`**kwargs`), as an association list. -/
abbrev Kwargs := List (String × PyVal)

/-- Dictionary lookup: `d.get(k)`. -/
def dictGet (d : Kwargs) (k : String) : Option PyVal :=
  match d with
  | [] => none
  | (k', v) :: rest => if k' = k then some v else dictGet rest k

/-- Dictionary update: `d[k] = v` (replaces the first binding of `k`, else appends). -/
def dictSet (d : Kwargs) (k : String) (v : PyVal) : Kwargs :=
  match d with
  | [] => [(k, v)]
  | (k', v') :: rest => if k' = k then (k, v) :: rest else (k', v') :: dictSet rest k v

/-- `kwargs.get("limit", 1000)` from the `fetch_all=False` branch of
`Client.__get_results` (`data_api.py` line 362). -/
def getLimit (d : Kwargs) : Nat :=
  match dictGet d "limit" with
  | some (PyVal.int n) => n.toNat
  | _ => 1000

/-- A row of a tabular dataset (a record of column name / value pairs). -/
abbrev Row := List (String × PyVal)

/-- The mutable per-dataset metadata record (`DatasetMetaInformation` in
`data_api.py`): endpoint id, cache file name, remote-update and local-cache
timestamps, cached row count (`offset`), session flag and the query used for
the last fetch (`None` before any fetch). -/
structure DatasetMetaInformation where
  endpoint : String
  filename : String
  updated_on : Nat
  cache_date : Nat
  offset : Nat
  loaded : Bool
  last_query : Option Kwargs
deriving DecidableEq, Repr

/-- The remote NYC OpenData service as seen through the sodapy `Socrata`
client: `get_all` (full, internally paged fetch) and `get` (single bounded
fetch).  Modelled as a pure function of the query. -/
structure RemoteSource where
  get_all : String → Kwargs → List Row
  get : String → Kwargs → List Row

/-- One network call issued by `Client.__get_results`. -/
inductive RemoteCall where
  | getAll (endpoint : String) (query : Kwargs)
  | get (endpoint : String) (query : Kwargs)
deriving DecidableEq, Repr

/-- The state touched by one `__get_results` call: the dataset's metadata and
the contents of its cache file (`none` when the file does not exist). -/
structure FetchState where
  metadata : DatasetMetaInformation
  cacheFile : Option (List Row)
deriving DecidableEq, Repr

/-- The outcome of one `__get_results` call: the returned table, the new
state, the network calls issued and the cache-file writes performed. -/
structure FetchResult where
  df : List Row
  state : FetchState
  calls : List RemoteCall
  writes : List (String × List Row)
deriving DecidableEq, Repr

/-- `Client.__get_results` (`data_api.py` lines 294-370).

With `fetch_all`: the cache is served iff the query equals
`metadata.last_query` and (`load_local` and the cache file exists); on the
served-cache path, if `cache_date < updated_on` one delta `get_all` with
`kwargs["offset"] = metadata.offset` is issued and its rows are appended
(`df.append`); otherwise a full `get_all` is issued and `last_query` is
overwritten.  Every `fetch_all` call then sets `offset := df.shape[0]`,
`cache_date := now` and rewrites the cache file (`df.to_csv`).

Without `fetch_all`: a capped read of the first `limit` (default 1000) rows
of the cache when `load_local` and the file exists, else one bounded
`client.get`; no metadata field other than `loaded` changes and no file is
written. -/
def get_results (remote : RemoteSource) (now : Nat) (st : FetchState)
    (fetch_all load_local : Bool) (kwargs : Kwargs) : FetchResult :=
  let md := { st.metadata with loaded := true }
  if fetch_all then
    -- `fetch_remote` starts true and is cleared only on the served-cache path
    let step : Option (List Row × List RemoteCall) :=
      if md.last_query = some kwargs then
        match load_local, st.cacheFile with
        | true, some cached =>
          if md.cache_date < md.updated_on then
            let kwargs2 := dictSet kwargs "offset" (PyVal.int md.offset)
            let delta := remote.get_all md.endpoint kwargs2
            some (cached ++ delta, [RemoteCall.getAll md.endpoint kwargs2])
          else
            some (cached, [])
        | _, _ => none
      else none
    match step with
    | some (df, calls) =>
      { df := df
        state := { metadata := { md with offset := df.length, cache_date := now }
                   cacheFile := some df }
        calls := calls
        writes := [(md.filename, df)] }
    | none =>
      let df := remote.get_all md.endpoint kwargs
      { df := df
        state := { metadata := { md with offset := df.length, cache_date := now,
                                         last_query := some kwargs }
                   cacheFile := some df }
        calls := [RemoteCall.getAll md.endpoint kwargs]
        writes := [(md.filename, df)] }
  else
    match load_local, st.cacheFile with
    | true, some cached =>
      { df := cached.take (getLimit kwargs)
        state := { st with metadata := md }
        calls := []
        writes := [] }
    | _, _ =>
      let df := remote.get md.endpoint kwargs
      { df := df
        state := { st with metadata := md }
        calls := [RemoteCall.get md.endpoint kwargs]
        writes := [] }

/-- Helper: with `fetch_all` and a query differing from `metadata.last_query`,
`__get_results` takes the full-fetch path. -/
theorem get_results_query_mismatch (remote : RemoteSource) (now : Nat)
    (st : FetchState) (ll : Bool) (kwargs : Kwargs)
    (h : st.metadata.last_query ≠ some kwargs) :
    (get_results remote now st true ll kwargs).calls
        = [RemoteCall.getAll st.metadata.endpoint kwargs] ∧
    (get_results remote now st true ll kwargs).df
        = remote.get_all st.metadata.endpoint kwargs ∧
    (get_results remote now st true ll kwargs).state.metadata.last_query
        = some kwargs := by
  simp [get_results, h]

/-- C1: with `fetch_all=true`, `load_local=true`, an existing cache file, a
query equal to `metadata.last_query` and `cache_date >= updated_on`
(WARM_FRESH), `Client.__get_results` issues no remote call and returns
exactly the cached table. -/
theorem get_results_warm_fresh_serves_cache (remote : RemoteSource) (now : Nat)
    (st : FetchState) (kwargs : Kwargs) (cached : List Row)
    (hcache : st.cacheFile = some cached)
    (hq : st.metadata.last_query = some kwargs)
    (hfresh : st.metadata.updated_on ≤ st.metadata.cache_date) :
    (get_results remote now st true true kwargs).calls = [] ∧
    (get_results remote now st true true kwargs).df = cached := by
  have hnot : ¬ st.metadata.cache_date < st.metadata.updated_on :=
    Nat.not_lt.mpr hfresh
  simp [get_results, hq, hcache, hnot]

/-- C2: with `fetch_all=true`, an existing cache file, a query equal to
`metadata.last_query` and `cache_date < updated_on` (WARM_STALE),
`Client.__get_results` issues exactly one delta `get_all` starting at offset
`metadata.offset`, appends the returned rows to the cached table, sets the
new `metadata.offset` to the cached row count plus the number of delta rows,
and advances `metadata.cache_date` strictly to the time `now` of the call
(assuming the clock reads at least `updated_on`). -/
theorem get_results_warm_stale_delta_append (remote : RemoteSource) (now : Nat)
    (st : FetchState) (kwargs : Kwargs) (cached : List Row)
    (hcache : st.cacheFile = some cached)
    (hq : st.metadata.last_query = some kwargs)
    (hstale : st.metadata.cache_date < st.metadata.updated_on)
    (hnow : st.metadata.updated_on ≤ now) :
    (get_results remote now st true true kwargs).calls
        = [RemoteCall.getAll st.metadata.endpoint
            (dictSet kwargs "offset" (PyVal.int st.metadata.offset))] ∧
    (get_results remote now st true true kwargs).df
        = cached ++ remote.get_all st.metadata.endpoint
            (dictSet kwargs "offset" (PyVal.int st.metadata.offset)) ∧
    (get_results remote now st true true kwargs).state.metadata.offset
        = cached.length + (remote.get_all st.metadata.endpoint
            (dictSet kwargs "offset" (PyVal.int st.metadata.offset))).length ∧
    (get_results remote now st true true kwargs).state.metadata.cache_date
        = now ∧
    st.metadata.cache_date
        < (get_results remote now st true true kwargs).state.metadata.cache_date := by
  refine ⟨?_, ?_, ?_, ?_, ?_⟩ <;> simp [get_results, hq, hcache, hstale]
  omega

/-- C3: if after a first `__get_results` call the stored `metadata.last_query`
differs from the next query, the second `fetch_all=true` call takes the full
remote-fetch path (one full `get_all`, no delta/append even if a cache file
exists) and overwrites `metadata.last_query` with the new query. -/
theorem get_results_query_change_full_fetch (remote : RemoteSource)
    (now1 now2 : Nat) (st : FetchState) (fa1 ll1 ll2 : Bool)
    (k1 k2 : Kwargs)
    (hdiff : (get_results remote now1 st fa1 ll1 k1).state.metadata.last_query
        ≠ some k2) :
    (get_results remote now2 (get_results remote now1 st fa1 ll1 k1).state
        true ll2 k2).calls
      = [RemoteCall.getAll
          (get_results remote now1 st fa1 ll1 k1).state.metadata.endpoint k2] ∧
    (get_results remote now2 (get_results remote now1 st fa1 ll1 k1).state
        true ll2 k2).df
      = remote.get_all
          (get_results remote now1 st fa1 ll1 k1).state.metadata.endpoint k2 ∧
    (get_results remote now2 (get_results remote now1 st fa1 ll1 k1).state
        true ll2 k2).state.metadata.last_query
      = some k2 :=
  get_results_query_mismatch remote now2
    (get_results remote now1 st fa1 ll1 k1).state ll2 k2 hdiff

/-- C8: with `fetch_all=false`, `Client.__get_results` is a bounded read: the
first `limit` (default 1000) rows of the cache file when `load_local` holds
and the file exists, otherwise one bounded remote `get`; on this path
`metadata.offset`, `metadata.cache_date` and `metadata.last_query` are
unchanged and no cache file is written. -/
theorem get_results_peek_bounded_read (remote : RemoteSource) (now : Nat)
    (st : FetchState) (ll : Bool) (kwargs : Kwargs) :
    (get_results remote now st false ll kwargs).state.metadata.offset
        = st.metadata.offset ∧
    (get_results remote now st false ll kwargs).state.metadata.cache_date
        = st.metadata.cache_date ∧
    (get_results remote now st false ll kwargs).state.metadata.last_query
        = st.metadata.last_query ∧
    (get_results remote now st false ll kwargs).state.cacheFile
        = st.cacheFile ∧
    (get_results remote now st false ll kwargs).writes = [] ∧
    (get_results remote now st false ll kwargs).df
        = (match ll, st.cacheFile with
           | true, some cached => cached.take (getLimit kwargs)
           | _, _ => remote.get st.metadata.endpoint kwargs) ∧
    (get_results remote now st false ll kwargs).calls
        = (match ll, st.cacheFile with
           | true, some _ => []
           | _, _ => [RemoteCall.get st.metadata.endpoint kwargs]) := by
  cases ll <;> cases hc : st.cacheFile <;> simp [get_results, hc]

/-- C10: even on the WARM_FRESH serve-from-cache path (no remote call),
`Client.__get_results` still mutates state: it sets `metadata.cache_date` to
the current time, sets `metadata.offset` to the row count read from the
cache file, and rewrites the full cache file; the call is not read-only. -/
theorem get_results_warm_fresh_still_mutates (remote : RemoteSource)
    (now : Nat) (st : FetchState) (kwargs : Kwargs) (cached : List Row)
    (hcache : st.cacheFile = some cached)
    (hq : st.metadata.last_query = some kwargs)
    (hfresh : st.metadata.updated_on ≤ st.metadata.cache_date) :
    (get_results remote now st true true kwargs).state.metadata.cache_date
        = now ∧
    (get_results remote now st true true kwargs).state.metadata.offset
        = cached.length ∧
    (get_results remote now st true true kwargs).writes
        = [(st.metadata.filename, cached)] ∧
    (get_results remote now st true true kwargs).state.cacheFile
        = some cached := by
  have hnot : ¬ st.metadata.cache_date < st.metadata.updated_on :=
    Nat.not_lt.mpr hfresh
  simp [get_results, hq, hcache, hnot]

/-! Concrete fixtures used by the witness theorems below: a housing-maintenance
style query, a two-row cached table, and a remote source whose delta answer
(query carrying an `offset` key) is one row. -/

def wQuery : Kwargs := [("where", PyVal.str "communityboard=16")]

def wQuery2 : Kwargs := [("where", PyVal.str "communityboard=17")]

def wRemote : RemoteSource :=
  { get_all := fun _ q =>
      if (dictGet q "offset").isSome then [[("complaintid", PyVal.int 3)]]
      else [[("complaintid", PyVal.int 1)], [("complaintid", PyVal.int 2)],
            [("complaintid", PyVal.int 3)]]
    get := fun _ _ => [[("complaintid", PyVal.int 1)]] }

def wCached : List Row :=
  [[("complaintid", PyVal.int 1)], [("complaintid", PyVal.int 2)]]

def wMetaFresh : DatasetMetaInformation :=
  { endpoint := "uwyv-629c"
    filename := "housing-maintenance-code-complaints-raw.csv"
    updated_on := 50, cache_date := 60, offset := 2, loaded := false
    last_query := some wQuery }

def wStateFresh : FetchState := { metadata := wMetaFresh, cacheFile := some wCached }

def wMetaStale : DatasetMetaInformation := { wMetaFresh with cache_date := 40 }

def wStateStale : FetchState := { metadata := wMetaStale, cacheFile := some wCached }

/-- Witness for C1 at a concrete WARM_FRESH state. -/
theorem get_results_warm_fresh_serves_cache_witness :
    (get_results wRemote 70 wStateFresh true true wQuery).calls = [] ∧
    (get_results wRemote 70 wStateFresh true true wQuery).df = wCached :=
  get_results_warm_fresh_serves_cache wRemote 70 wStateFresh wQuery wCached
    rfl rfl (by decide)

/-- Witness for C2 at a concrete WARM_STALE state. -/
theorem get_results_warm_stale_delta_append_witness :
    (get_results wRemote 70 wStateStale true true wQuery).calls
        = [RemoteCall.getAll wStateStale.metadata.endpoint
            (dictSet wQuery "offset" (PyVal.int wStateStale.metadata.offset))] ∧
    (get_results wRemote 70 wStateStale true true wQuery).df
        = wCached ++ wRemote.get_all wStateStale.metadata.endpoint
            (dictSet wQuery "offset" (PyVal.int wStateStale.metadata.offset)) ∧
    (get_results wRemote 70 wStateStale true true wQuery).state.metadata.offset
        = wCached.length + (wRemote.get_all wStateStale.metadata.endpoint
            (dictSet wQuery "offset" (PyVal.int wStateStale.metadata.offset))).length ∧
    (get_results wRemote 70 wStateStale true true wQuery).state.metadata.cache_date
        = 70 ∧
    wStateStale.metadata.cache_date
        < (get_results wRemote 70 wStateStale true true wQuery).state.metadata.cache_date :=
  get_results_warm_stale_delta_append wRemote 70 wStateStale wQuery wCached
    rfl rfl (by decide) (by decide)

/-- Witness for C3: a first call with the unchanged query, then a call with a
changed community-board filter. -/
theorem get_results_query_change_full_fetch_witness :
    (get_results wRemote 80
        (get_results wRemote 70 wStateFresh true true wQuery).state
        true true wQuery2).calls
      = [RemoteCall.getAll
          (get_results wRemote 70 wStateFresh true true wQuery).state.metadata.endpoint
          wQuery2] ∧
    (get_results wRemote 80
        (get_results wRemote 70 wStateFresh true true wQuery).state
        true true wQuery2).df
      = wRemote.get_all
          (get_results wRemote 70 wStateFresh true true wQuery).state.metadata.endpoint
          wQuery2 ∧
    (get_results wRemote 80
        (get_results wRemote 70 wStateFresh true true wQuery).state
        true true wQuery2).state.metadata.last_query
      = some wQuery2 :=
  get_results_query_change_full_fetch wRemote 70 80 wStateFresh true true true
    wQuery wQuery2 (by decide)

/-- Witness for C10 at a concrete WARM_FRESH state. -/
theorem get_results_warm_fresh_still_mutates_witness :
    (get_results wRemote 70 wStateFresh true true wQuery).state.metadata.cache_date
        = 70 ∧
    (get_results wRemote 70 wStateFresh true true wQuery).state.metadata.offset
        = wCached.length ∧
    (get_results wRemote 70 wStateFresh true true wQuery).writes
        = [(wStateFresh.metadata.filename, wCached)] ∧
    (get_results wRemote 70 wStateFresh true true wQuery).state.cacheFile
        = some wCached :=
  get_results_warm_fresh_still_mutates wRemote 70 wStateFresh wQuery wCached
    rfl rfl (by decide)

/-! ### The dataset join pipeline (`Client.load_brownsville`,
`Brownsville.__filter_no_complaints`) -/

/-- A row of the (community-board-filtered) housing-maintenance slice, with
the columns `load_brownsville` uses: the merge key `(complaintid, statusdate)`
plus building data.  Dates are modelled as integer timestamps. -/
structure HMRow where
  complaintid : Int
  statusdate : Int
  buildingid : Int
deriving DecidableEq, Repr

/-- A row of the complaint-problems slice selected by `load_brownsville`
(`select distinct complaintid, ..., statusdate, statusdescription`). -/
structure CPRow where
  complaintid : Int
  statusdate : Int
  majorcategoryid : Option Int
  minorcategoryid : Option Int
  statusdescription : String
deriving DecidableEq, Repr

/-- The block of output rows a single left row contributes to a pandas
`merge(..., how="left")`: one row per matching right row, or a single row
with a null right part when nothing matches. -/
def mergeBlock {L R K : Type} [DecidableEq K] (keyL : L → K) (keyR : R → K)
    (l : L) (right : List R) : List (L × Option R) :=
  match right.filter (fun r => decide (keyR r = keyL l)) with
  | [] => [(l, none)]
  | m :: ms => (m :: ms).map (fun r => (l, some r))

/-- `pd.merge(left, right, on=key, how="left")`: concatenation of the blocks
contributed by the left rows in order. -/
def leftMerge {L R K : Type} [DecidableEq K] (keyL : L → K) (keyR : R → K) :
    List L → List R → List (L × Option R)
  | [], _ => []
  | l :: rest, right => mergeBlock keyL keyR l right ++ leftMerge keyL keyR rest right

/-- The merge key of `load_brownsville`: `["complaintid", "statusdate"]`. -/
def hmKey (h : HMRow) : Int × Int := (h.complaintid, h.statusdate)

/-- The merge key of `load_brownsville` on the complaint-problems side. -/
def cpKey (c : CPRow) : Int × Int := (c.complaintid, c.statusdate)

/-- The merge performed by `Client.load_brownsville` (`data_api.py` lines
260-265): left join of the housing-maintenance slice with the
complaint-problems slice on `(complaintid, statusdate)`. -/
def load_brownsville_merge (hm : List HMRow) (cp : List CPRow) :
    List (HMRow × Option CPRow) :=
  leftMerge hmKey cpKey hm cp

/-- `Client.load_brownsville` (`data_api.py` lines 204-278), bounds phase and
merge.  Python computes `min(df["statusdate"])`, `min(df["complaintid"])`
and `max(df["complaintid"])` with the builtin `min`/`max`, which raise on an
empty housing-maintenance slice (before any complaint-problems fetch); the
complaint-problems query, issued only afterwards, is recorded in the returned
trace of `(min_date, min_complaint_id, max_complaint_id)` bounds. -/
def load_brownsville_model (hm : List HMRow)
    (cp_fetch : Int → Int → Int → List CPRow) :
    Except String (List (HMRow × Option CPRow)) × List (Int × Int × Int) :=
  match hm with
  | [] => (Except.error "min() arg is an empty sequence", [])
  | h :: t =>
    let min_date := (t.map HMRow.statusdate).foldl min h.statusdate
    let min_complaint_id := (t.map HMRow.complaintid).foldl min h.complaintid
    let max_complaint_id := (t.map HMRow.complaintid).foldl max h.complaintid
    let cp := cp_fetch min_date min_complaint_id max_complaint_id
    (Except.ok (load_brownsville_merge (h :: t) cp),
     [(min_date, min_complaint_id, max_complaint_id)])

theorem mergeBlock_map_fst {L R K : Type} [DecidableEq K]
    (keyL : L → K) (keyR : R → K) (l : L) (right : List R) :
    (mergeBlock keyL keyR l right).map Prod.fst
      = List.replicate
          (max 1 (right.filter (fun r => decide (keyR r = keyL l))).length) l := by
  unfold mergeBlock
  cases h : right.filter (fun r => decide (keyR r = keyL l)) with
  | nil => simp
  | cons m ms => simp [List.map_map, Function.comp_def, Nat.max_eq_right,
      Nat.succ_le_succ (Nat.zero_le ms.length), List.replicate_succ]

/-- Multiplicity of a left row among the left components of the joined table:
its multiplicity in the left table times `max 1 (number of key matches)`. -/
theorem count_map_fst_leftMerge {L R K : Type} [DecidableEq L] [DecidableEq K]
    (keyL : L → K) (keyR : R → K) (right : List R) (l : L) :
    ∀ left : List L,
      ((leftMerge keyL keyR left right).map Prod.fst).count l
        = left.count l
            * max 1 (right.filter (fun r => decide (keyR r = keyL l))).length := by
  intro left
  induction left with
  | nil => simp [leftMerge]
  | cons l' rest ih =>
    rw [leftMerge, List.map_append, List.count_append, ih, mergeBlock_map_fst,
      List.count_replicate, List.count_cons]
    by_cases hl : l' = l
    · subst hl
      simp [Nat.add_mul, Nat.add_comm]
    · simp [hl]

/-- Helper: a left row with no key match contributes a row with a null right
part to the joined table. -/
theorem leftMerge_no_match_mem {L R K : Type} [DecidableEq K]
    (keyL : L → K) (keyR : R → K) (left : List L) (right : List R) (l : L)
    (hl : l ∈ left)
    (hnone : right.filter (fun r => decide (keyR r = keyL l)) = []) :
    (l, (none : Option R)) ∈ leftMerge keyL keyR left right := by
  induction left with
  | nil => cases hl
  | cons l' rest ih =>
    rw [leftMerge]
    rcases List.mem_cons.mp hl with h | h
    · subst h
      apply List.mem_append_left
      unfold mergeBlock
      rw [hnone]
      exact List.mem_singleton.mpr rfl
    · exact List.mem_append_right _ (ih h)

/-- C4, counterexample: it is not true that every row of the filtered
housing-maintenance slice appears exactly once in the joined table — a
housing-maintenance row whose `(complaintid, statusdate)` key matches two
distinct complaint-problems rows appears twice. -/
def cHM : HMRow := { complaintid := 1, statusdate := 10, buildingid := 100 }

def cCP1 : CPRow :=
  { complaintid := 1, statusdate := 10, majorcategoryid := some 9
    minorcategoryid := some 59, statusdescription := "a" }

def cCP2 : CPRow :=
  { complaintid := 1, statusdate := 10, majorcategoryid := some 8
    minorcategoryid := some 58, statusdescription := "b" }

/-- C4 fails as stated: with two distinct complaint-problems rows sharing the
key `(1, 10)`, the single housing-maintenance row `cHM` appears twice, not
once, in the pre-filter joined table. -/
theorem load_brownsville_merge_not_exactly_once :
    ¬ (∀ (hm : List HMRow) (cp : List CPRow), ∀ l ∈ hm,
        ((load_brownsville_merge hm cp).map Prod.fst).count l = 1) := fun h =>
  absurd (h [cHM] [cCP1, cCP2] cHM (by decide)) (by decide)

/-- C4, amended: every row `l` of the filtered housing-maintenance slice
appears in the pre-filter joined table with multiplicity
`(multiplicity of l in the slice) * max 1 (number of complaint-problems rows
sharing its key)` — so exactly once when it occurs once on the left and at
most one complaint-problems row matches — and when no complaint-problems row
matches its key it appears with null problem-detail columns. -/
theorem load_brownsville_merge_left_rows (hm : List HMRow) (cp : List CPRow)
    (l : HMRow) (hl : l ∈ hm) :
    ((load_brownsville_merge hm cp).map Prod.fst).count l
        = hm.count l
            * max 1 (cp.filter (fun c => decide (cpKey c = hmKey l))).length
    ∧ (cp.filter (fun c => decide (cpKey c = hmKey l)) = [] →
        (l, (none : Option CPRow)) ∈ load_brownsville_merge hm cp) :=
  ⟨count_map_fst_leftMerge hmKey cpKey cp l hm,
   fun h => leftMerge_no_match_mem hmKey cpKey hm cp l hl h⟩

/-- Witness for the amended C4: one left row, no matching complaint-problems
row — it appears exactly once, with a null right part. -/
theorem load_brownsville_merge_left_rows_witness :
    (((load_brownsville_merge [cHM] []).map Prod.fst).count cHM
        = [cHM].count cHM
            * max 1 (([] : List CPRow).filter
                (fun c => decide (cpKey c = hmKey cHM))).length)
    ∧ (([] : List CPRow).filter (fun c => decide (cpKey c = hmKey cHM)) = [] →
        (cHM, (none : Option CPRow)) ∈ load_brownsville_merge [cHM] []) :=
  load_brownsville_merge_left_rows [cHM] [] cHM (by decide)

/-- C9: on an empty filtered housing-maintenance slice the pipeline fails
fast — `load_brownsville` raises while computing the status-date/complaint-id
bounds (Python's builtin `min` on an empty sequence) and no complaint-problems
query is issued (the bound-query trace is empty). -/
theorem load_brownsville_empty_slice_fails_fast
    (cp_fetch : Int → Int → Int → List CPRow) :
    (load_brownsville_model [] cp_fetch).1
        = Except.error "min() arg is an empty sequence" ∧
    (load_brownsville_model [] cp_fetch).2 = [] :=
  ⟨rfl, rfl⟩

/-! ### The final-table complaint-category invariant
(`Brownsville.__filter_no_complaints`, `Brownsville.__filter_descriptions`) -/

/-- A row of the unified Brownsville table, with the columns the final
pipeline steps touch.  `Option` models pandas nullable (`NA`) cells. -/
structure BRow where
  majorcategoryid : Option Int
  minorcategoryid : Option Int
  statusdescription : String
  statusdescriptionshort : Option String
deriving DecidableEq, Repr

/-- `Brownsville.__filter_no_complaints` (`BrownsvilleAPI.py` lines 712-720):
drop rows whose major and minor complaint-category ids are both null. -/
def filter_no_complaints (data : List BRow) : List BRow :=
  data.filter fun r => !(r.majorcategoryid.isNone && r.minorcategoryid.isNone)

/-- `Brownsville.__filter_descriptions` (`BrownsvilleAPI.py` lines 858-887):
map each row's status description through the short-description dictionary
(modelled as the function parameter `descriptions`; unmapped text yields a
null short description, as pandas `Series.map` does). -/
def filter_descriptions (descriptions : String → Option String)
    (data : List BRow) : List BRow :=
  data.map fun r => { r with statusdescriptionshort := descriptions r.statusdescription }

/-- The tail of the `Brownsville.__init__` pipeline after all joins and
fills: `__filter_no_complaints` then `__filter_descriptions` (the last two
steps that touch rows; later steps only render and save). -/
def pipeline_tail (descriptions : String → Option String)
    (data : List BRow) : List BRow :=
  filter_descriptions descriptions (filter_no_complaints data)

/-- C5: every row of the final unified table has a non-null major category id
or a non-null minor category id; rows with both null never survive
`__filter_no_complaints`, and the remaining pipeline step only rewrites the
short-description column. -/
theorem brownsville_final_rows_have_category
    (descriptions : String → Option String) (data : List BRow) (r : BRow)
    (hr : r ∈ pipeline_tail descriptions data) :
    r.majorcategoryid ≠ none ∨ r.minorcategoryid ≠ none := by
  unfold pipeline_tail filter_descriptions at hr
  rcases List.mem_map.mp hr with ⟨r0, hr0, rfl⟩
  unfold filter_no_complaints at hr0
  have h := (List.mem_filter.mp hr0).2
  simp only [Bool.not_eq_eq_eq_not, Bool.not_true, Bool.and_eq_false_imp,
    Option.isNone_eq_false_iff, Option.isSome_iff_ne_none] at h
  by_cases hmj : r0.majorcategoryid = none
  · right
    show r0.minorcategoryid ≠ none
    rw [hmj] at h
    simpa using h
  · left
    exact hmj

def wDescriptions : String → Option String := fun _ => none

def wBRow : BRow :=
  { majorcategoryid := some 9, minorcategoryid := none
    statusdescription := "UNKNOWN STATUS", statusdescriptionshort := none }

/-- Witness for C5 at a concrete one-row table. -/
theorem brownsville_final_rows_have_category_witness :
    wBRow.majorcategoryid ≠ none ∨ wBRow.minorcategoryid ≠ none :=
  brownsville_final_rows_have_category wDescriptions [wBRow] wBRow (by decide)

/-! ### The borough-block-lot key (`helpers.format_BBL`,
`Brownsville.__get_BBL`) -/

/-- Python `str.zfill(w)`: left-pad with `'0'` up to width `w` (the string is
returned unchanged when already at least `w` long). -/
def zfill (s : String) (w : Nat) : String :=
  ⟨List.replicate (w - s.length) '0' ++ s.data⟩

/-- The numeric value of a decimal digit character. -/
def charVal (c : Char) : Nat := c.toNat - '0'.toNat

/-- Decimal evaluation of a character list with an accumulator (the effect of
`astype('int64')` on a decimal string). -/
def listParseFrom (a : Nat) : List Char → Nat
  | [] => a
  | c :: cs => listParseFrom (a * 10 + charVal c) cs

/-- Decimal evaluation of a string (`astype('int64')` /  `int(...)`). -/
def parseNat (s : String) : Nat := listParseFrom 0 s.data

/-- Number of decimal digits of a natural number (at least one). -/
def numDigits (n : Nat) : Nat :=
  if _h : n < 10 then 1 else numDigits (n / 10) + 1
decreasing_by exact Nat.div_lt_self (by omega) (by omega)

/-- `helpers.format_BBL` (`helpers.py` lines 57-62) and the row operation of
`Brownsville.__get_BBL` (`BrownsvilleAPI.py` lines 938-945): the decimal
string of the borough id, the block zero-filled to 5 digits and the lot
zero-filled to 4 digits, concatenated. -/
def format_BBL (borough block lot : Nat) : String :=
  Nat.repr borough ++ zfill (Nat.repr block) 5 ++ zfill (Nat.repr lot) 4

/-- `Brownsville.__get_BBL`: the concatenated string cast to an integer
(`astype('int64')`). -/
def get_BBL (borough block lot : Nat) : Nat :=
  parseNat (format_BBL borough block lot)

theorem listParseFrom_nil (a : Nat) : listParseFrom a [] = a := rfl

theorem listParseFrom_cons (a : Nat) (c : Char) (cs : List Char) :
    listParseFrom a (c :: cs) = listParseFrom (a * 10 + charVal c) cs := rfl

theorem listParseFrom_append (l1 l2 : List Char) :
    ∀ a : Nat, listParseFrom a (l1 ++ l2) = listParseFrom (listParseFrom a l1) l2 := by
  induction l1 with
  | nil => intro a; rfl
  | cons c cs ih =>
    intro a
    rw [List.cons_append, listParseFrom_cons, listParseFrom_cons, ih]

theorem listParseFrom_shift (l : List Char) :
    ∀ a : Nat, listParseFrom a l = a * 10 ^ l.length + listParseFrom 0 l := by
  induction l with
  | nil => intro a; simp [listParseFrom_nil]
  | cons c cs ih =>
    intro a
    rw [listParseFrom_cons, listParseFrom_cons, ih (a * 10 + charVal c),
      ih (0 * 10 + charVal c), List.length_cons]
    ring

theorem listParseFrom_replicate_zero (k : Nat) :
    ∀ a : Nat, listParseFrom a (List.replicate k '0') = a * 10 ^ k := by
  induction k with
  | zero => intro a; simp [listParseFrom_nil]
  | succ k ih =>
    intro a
    rw [List.replicate_succ, listParseFrom_cons, ih]
    have h0 : charVal '0' = 0 := rfl
    rw [h0]
    ring

theorem charVal_digitChar (d : Nat) (h : d < 10) :
    charVal (Nat.digitChar d) = d := by
  interval_cases d <;> rfl

/-- Decimal evaluation inverts `Nat.toDigitsCore` (the core of `Nat.repr`). -/
theorem toDigitsCore_parse (f : Nat) : ∀ (n : Nat) (ds : List Char) (a : Nat),
    n < 10 ^ f → 0 < f →
    listParseFrom a (Nat.toDigitsCore 10 f n ds)
      = listParseFrom (a * 10 ^ numDigits n + n) ds := by
  induction f with
  | zero => intro n ds a _ hpos; omega
  | succ f ih =>
    intro n ds a hlt _
    simp only [Nat.toDigitsCore]
    by_cases h0 : n / 10 = 0
    · have hn : n < 10 := by omega
      have hmod : n % 10 = n := Nat.mod_eq_of_lt hn
      rw [if_pos h0, listParseFrom_cons, hmod, charVal_digitChar n hn,
        numDigits, dif_pos hn, pow_one]
    · have hge : 10 ≤ n := by
        rcases Nat.lt_or_ge n 10 with h | h
        · exact absurd (by omega : n / 10 = 0) h0
        · exact h
      have hfpos : 0 < f := by
        rcases Nat.eq_zero_or_pos f with rfl | h
        · norm_num at hlt; omega
        · exact h
      have hdiv : n / 10 < 10 ^ f := by
        rw [pow_succ, Nat.mul_comm] at hlt
        exact Nat.div_lt_of_lt_mul hlt
      rw [if_neg h0, ih (n / 10) (Nat.digitChar (n % 10) :: ds) a hdiv hfpos,
        listParseFrom_cons, charVal_digitChar (n % 10) (Nat.mod_lt n (by omega))]
      have hnd : numDigits n = numDigits (n / 10) + 1 := by
        rw [numDigits, dif_neg (by omega : ¬ n < 10)]
      rw [hnd]
      have : (a * 10 ^ (numDigits (n / 10)) + n / 10) * 10 + n % 10
          = a * 10 ^ (numDigits (n / 10) + 1) + (10 * (n / 10) + n % 10) := by
        ring
      rw [this, Nat.div_add_mod]

/-- Decimal evaluation inverts `Nat.repr`. -/
theorem parseNat_repr (n : Nat) : parseNat (Nat.repr n) = n := by
  have h1 : n < 10 ^ (n + 1) :=
    lt_of_lt_of_le (Nat.lt_pow_self (by omega) n)
      (Nat.pow_le_pow_right (by omega) (Nat.le_succ n))
  calc parseNat (Nat.repr n)
      = listParseFrom 0 (Nat.toDigitsCore 10 (n + 1) n []) := rfl
    _ = listParseFrom (0 * 10 ^ numDigits n + n) [] :=
        toDigitsCore_parse (n + 1) n [] 0 h1 (Nat.succ_pos n)
    _ = n := by rw [listParseFrom_nil]; ring

/-- Decimal evaluation of a zero-filled decimal string under an accumulator. -/
theorem listParseFrom_zfill (a : Nat) (s : String) (w n : Nat)
    (hs : listParseFrom 0 s.data = n) (hlen : s.length ≤ w) :
    listParseFrom a (zfill s w).data = a * 10 ^ w + n := by
  show listParseFrom a (List.replicate (w - s.length) '0' ++ s.data) = _
  rw [listParseFrom_append, listParseFrom_replicate_zero, listParseFrom_shift, hs]
  have hds : s.data.length = s.length := rfl
  have hpow : (10 : Nat) ^ (w - s.length) * 10 ^ s.data.length = 10 ^ w := by
    rw [← pow_add]
    congr 1
    omega
  rw [mul_assoc, hpow]

/-- C6: the `bbl` key derived by `__get_BBL` / `format_BBL` is the decimal
concatenation of the borough id, the block zero-padded to 5 digits and the
lot zero-padded to 4 digits: numerically,
`borough * 10^9 + block * 10^4 + lot` whenever block and lot fit their
fields (for a 1-digit borough this is the 10-digit BBL). -/
theorem get_BBL_concat (borough block lot : Nat)
    (hb : block < 100000) (hl : lot < 10000) :
    get_BBL borough block lot = borough * 10 ^ 9 + block * 10 ^ 4 + lot := by
  have hbl : (Nat.repr block).length ≤ 5 :=
    Nat.repr_length block 5 (by omega) (by omega)
  have hll : (Nat.repr lot).length ≤ 4 :=
    Nat.repr_length lot 4 (by omega) (by omega)
  have hblock : listParseFrom 0 (Nat.repr block).data = block := parseNat_repr block
  have hlot : listParseFrom 0 (Nat.repr lot).data = lot := parseNat_repr lot
  calc get_BBL borough block lot
      = listParseFrom 0
          (((Nat.repr borough).data ++ (zfill (Nat.repr block) 5).data)
            ++ (zfill (Nat.repr lot) 4).data) := rfl
    _ = listParseFrom
          (listParseFrom (listParseFrom 0 (Nat.repr borough).data)
            ((zfill (Nat.repr block) 5).data))
          ((zfill (Nat.repr lot) 4).data) := by
        rw [listParseFrom_append, listParseFrom_append]
    _ = listParseFrom (borough * 10 ^ 5 + block) ((zfill (Nat.repr lot) 4).data) := by
        have hborough : listParseFrom 0 (Nat.repr borough).data = borough :=
          parseNat_repr borough
        rw [hborough, listParseFrom_zfill borough (Nat.repr block) 5 block hblock hbl]
    _ = (borough * 10 ^ 5 + block) * 10 ^ 4 + lot :=
        listParseFrom_zfill _ (Nat.repr lot) 4 lot hlot hll
    _ = borough * 10 ^ 9 + block * 10 ^ 4 + lot := by ring

/-- Witness for C6 at the claim's concrete input: borough 3, block 7, lot 42
give the integer key 3000070042. -/
theorem get_BBL_concat_witness : get_BBL 3 7 42 = 3000070042 :=
  (get_BBL_concat 3 7 42 (by omega) (by omega)).trans (by norm_num)

/-! ### Spatial enrichment (`Brownsville.__get_spatial_information`,
`geocode.GeocodeClient`) -/

/-- The MapQuest geocoding service: one HTTP request per call, yielding a
coordinate pair or raising (network error, no match, malformed response).
Coordinates are modelled opaquely as integer pairs. -/
structure GeoService where
  fetch_lat_lng : String → String → String → String → Except String (Int × Int)
  fetch_zip : String → String → String → Except String String

/-- `GeocodeClient.get_lat_lng` (`geocode.py` lines 22-47): the request and
response parsing run with no `try`/`except` — a failure propagates to the
caller. -/
def get_lat_lng (svc : GeoService) (street city state zip_code : String) :
    Except String (Int × Int) :=
  svc.fetch_lat_lng street city state zip_code

/-- `GeocodeClient.get_zip` (`geocode.py` lines 49-75): the body is wrapped
in `try`/`except`; on failure the address is printed and `None` is
returned. -/
def get_zip (svc : GeoService) (street city state : String) : Option String :=
  match svc.fetch_zip street city state with
  | Except.ok z => some z
  | Except.error _ => none

/-- The address-resolution loop of `Brownsville.__get_spatial_information`
(`BrownsvilleAPI.py` lines 735-750, cache-miss branch): for each unique
`(street, city, zip)` triple call `get_lat_lng` with state `"NY"` and record
the coordinates under the space-joined address key.  The loop body has no
`try`/`except`, so a raised lookup error aborts the whole loop: the model
returns the error instead of a table. -/
def build_address_table (svc : GeoService) :
    List (String × String × String) → Except String (List (String × (Int × Int)))
  | [] => Except.ok []
  | (street, city, zip_code) :: rest =>
    match get_lat_lng svc street city "NY" zip_code with
    | Except.error e => Except.error e
    | Except.ok coord =>
      match build_address_table svc rest with
      | Except.error e => Except.error e
      | Except.ok table =>
        Except.ok ((street ++ " " ++ city ++ " " ++ zip_code, coord) :: table)

theorem build_address_table_nil (svc : GeoService) :
    build_address_table svc [] = Except.ok [] := rfl

theorem build_address_table_cons (svc : GeoService)
    (street city zip_code : String) (rest : List (String × String × String)) :
    build_address_table svc ((street, city, zip_code) :: rest)
      = (match get_lat_lng svc street city "NY" zip_code with
         | Except.error e => Except.error e
         | Except.ok coord =>
           match build_address_table svc rest with
           | Except.error e => Except.error e
           | Except.ok table =>
             Except.ok ((street ++ " " ++ city ++ " " ++ zip_code, coord) :: table)) :=
  rfl

/-- A geocoding service that fails on one address and succeeds elsewhere. -/
def cGeoSvc : GeoService :=
  { fetch_lat_lng := fun street _ _ _ =>
      if street = "61 PLEASANT PLACE" then Except.error "ConnectionError"
      else Except.ok (40, -73)
    fetch_zip := fun _ _ _ => Except.error "ConnectionError" }

/-- C7 fails as stated: a failing coordinate lookup for the first address is
not caught — it propagates out of the enrichment loop as an error of the
whole batch, and the remaining address is never resolved (no partial table
is produced). -/
theorem spatial_lookup_failure_aborts_batch :
    build_address_table cGeoSvc
        [("61 PLEASANT PLACE", "BROOKLYN", "11212"),
         ("1 MAIN ST", "BROOKLYN", "11212")]
      = Except.error "ConnectionError" := rfl

/-- C7, amended: a failed single-address coordinate lookup in
`__get_spatial_information` is NOT caught: whenever some address in the batch
has a failing `get_lat_lng` lookup, the whole enrichment loop raises (no
table is produced for any address).  Only zip-code lookups are caught:
`GeocodeClient.get_zip` turns any failure into a logged `None`. -/
theorem spatial_failure_propagates (svc : GeoService)
    (addrs : List (String × String × String))
    (street city zip_code e : String)
    (hmem : (street, city, zip_code) ∈ addrs)
    (hfail : svc.fetch_lat_lng street city "NY" zip_code = Except.error e) :
    (∃ e2, build_address_table svc addrs = Except.error e2)
    ∧ ∀ s c st e2, svc.fetch_zip s c st = Except.error e2 →
        get_zip svc s c st = none := by
  constructor
  · induction addrs with
    | nil => cases hmem
    | cons hd rest ih =>
      obtain ⟨s0, c0, z0⟩ := hd
      rcases List.mem_cons.mp hmem with h | h
      · obtain ⟨rfl, rfl, rfl⟩ := Prod.mk.injEq .. ▸ h
        exact ⟨e, by rw [build_address_table_cons, get_lat_lng, hfail]⟩
      · rcases ih h with ⟨e2, he2⟩
        cases hcoord : get_lat_lng svc s0 c0 "NY" z0 with
        | error e3 => exact ⟨e3, by rw [build_address_table_cons, hcoord]⟩
        | ok coord => exact ⟨e2, by rw [build_address_table_cons, hcoord, he2]⟩
  · intro s c st e2 h2
    simp [get_zip, h2]

/-- Witness for the amended C7 at a concrete failing service. -/
theorem spatial_failure_propagates_witness :
    (∃ e2, build_address_table cGeoSvc
        [("61 PLEASANT PLACE", "BROOKLYN", "11212")] = Except.error e2)
    ∧ ∀ s c st e2, cGeoSvc.fetch_zip s c st = Except.error e2 →
        get_zip cGeoSvc s c st = none :=
  spatial_failure_propagates cGeoSvc
    [("61 PLEASANT PLACE", "BROOKLYN", "11212")]
    "61 PLEASANT PLACE" "BROOKLYN" "11212" "ConnectionError"
    (by decide) rfl

end Brownsville
